import Mathlib

/-!
# Verification of BrowserTerminal's `TerminalServer.py`

A shallow embedding of the session multiplexer in `src/TerminalServer.py`:
the access-key vault (`ConnectionDispatcher.generateAccessKey` /
`validateAccessKey`), the PTY resize path (`Terminal.resizeTerminal`,
`Terminal.onClientInput`), the client-connection loop (`Terminal.listen`),
the connection dispatch (`ConnectionDispatcher.terminalHandler`,
`ConnectionDispatcher.handler`), session-ID generation
(`ConnectionDispatcher.generateSessionID`), the registry / reaper
(`Terminal.waitSubshell`, `ConnectionDispatcher.pushStateChange`), the
output pump (`Terminal.pushTtyOutput`) and the management channel
(`ConnectionDispatcher.managementHandler`).

Python dictionaries are embedded as association lists, wall-clock time as
natural-number seconds, and calls into external libraries
(`secrets.token_hex`, `json.loads`) as explicit inputs (byte draws, a
parse oracle).
-/

namespace TerminalServer

/-! ## TokenVault: `generateAccessKey` / `validateAccessKey`
(`ConnectionDispatcher`, TerminalServer.py lines 159-186)

`self.accessKeys` is a dict mapping access key -> expiration time; we embed
it as an association list of `(key, expire)` pairs.  `time.time()` is the
`now : Nat` argument. -/

/-- The keys present in the vault (the dict's key set). -/
def vaultKeys (v : List (String × Nat)) : List String :=
  v.map Prod.fst

/-- `generateAccessKey` (lines 159-165): `self.accessKeys[accessKey] =
time.time() + 3600`.  Dict assignment overwrites any previous binding of
the same key. -/
def generateAccessKey (now : Nat) (k : String) (v : List (String × Nat)) :
    List (String × Nat) :=
  (k, now + 3600) :: v.filter (fun kv => kv.1 ≠ k)

/-- The sweep at the top of `validateAccessKey` (lines 170-177): every
entry with `expire < currentTime` is deleted. -/
def sweepExpired (now : Nat) (v : List (String × Nat)) : List (String × Nat) :=
  v.filter (fun kv => ¬ kv.2 < now)

/-- `validateAccessKey` (lines 167-186): sweep expired entries, then if
`checkKey` is still present delete it and return `True`, else return
`False`.  The result pairs the returned boolean with the vault left
behind. -/
def validateAccessKey (now : Nat) (checkKey : String)
    (v : List (String × Nat)) : Bool × List (String × Nat) :=
  let v' := sweepExpired now v
  if v'.any (fun kv => kv.1 = checkKey) then
    (true, v'.filter (fun kv => kv.1 ≠ checkKey))
  else
    (false, v')

/-- A sequence of later `consume` calls, each at its own time and for its
own key, threaded through the vault state. -/
def runConsumes (ops : List (Nat × String)) (v : List (String × Nat)) :
    List (String × Nat) :=
  match ops with
  | [] => v
  | (now, k) :: rest => runConsumes rest (validateAccessKey now k v).2

/-! ## PtyProcess resize: `Terminal.resizeTerminal` (lines 66-70)

`struct.pack("HHHH", row, col, 0, 0)` packs four C unsigned shorts;
CPython raises `struct.error` unless `0 <= value <= 0xffff` for each
field, and requires integers.  We embed the dimensions as `Int` and the
pack as a partial function. -/

/-- `struct.pack("HHHH", a, b, c, d)`: `some` of the packed fields when
every field fits an unsigned 16-bit integer, `none` for the
`struct.error` raised otherwise. -/
def packHHHH (a b c d : Int) : Option (List Int) :=
  if 0 ≤ a ∧ a < 65536 ∧ 0 ≤ b ∧ b < 65536 ∧ 0 ≤ c ∧ c < 65536 ∧
      0 ≤ d ∧ d < 65536 then
    some [a, b, c, d]
  else
    none

/-- `resizeTerminal(row, col)` (lines 66-70): pack the winsize struct and
issue the `TIOCSWINSZ` ioctl.  `some (row, col)` means the ioctl was
issued with those dimensions; `none` means `struct.pack` raised and no
ioctl was issued.  There is no validity check on the dimensions beyond
what `struct.pack` itself enforces. -/
def resizeTerminal (row col : Int) : Option (Int × Int) :=
  match packHHHH row col 0 0 with
  | some _ => some (row, col)
  | none => none

/-! ## Client input: `Terminal.onClientInput` (lines 120-133)

Messages are embedded as `List Char`.  The call
`json.loads(message[1:])` followed by `dimensions['rows']`,
`dimensions['cols']` is embedded as an oracle
`jsonDims : List Char → Option (Int × Int)`; `none` stands for a raised
`JSONDecodeError` / `KeyError` / non-integer dimension value. -/

/-- The observable effect of one client message. -/
inductive InputEffect
  | noop
  | ptyWrite (payload : List Char)
  | winResize (rows cols : Int)
  deriving Repr, DecidableEq

/-- `onClientInput(message)` (lines 120-133).  `some e` is a normal
return with effect `e`; `none` means an exception escaped (the method has
no handler, so it propagates to the caller).  Empty messages return; a
`k` prefix writes the rest to the pty; an `r` prefix parses the rest as
JSON and calls `resizeTerminal`; anything else falls through and
returns. -/
def onClientInput (jsonDims : List Char → Option (Int × Int))
    (message : List Char) : Option InputEffect :=
  match message with
  | [] => some .noop
  | c :: rest =>
    if c = 'k' then some (.ptyWrite rest)
    else if c = 'r' then
      match jsonDims rest with
      | none => none
      | some (r, co) =>
        match resizeTerminal r co with
        | some _ => some (.winResize r co)
        | none => none
    else some .noop

/-! ## Connection loop: `Terminal.listen` (lines 72-89)

The `try`/`while` body of `listen`: each loop iteration checks
`self.open`, then `await`s one recv outcome, then dispatches it through
`onClientInput`.  The session state visible to the loop is
`{shellOpen, connected}` (the source's `self.open` / `self.connected`). -/

/-- The session flags `self.open` and `self.connected` (lines 24-25),
renamed `shellOpen`/`connected` (`open` is reserved in Lean); the spec
calls them `shellOpen` and `peerAttached`. -/
structure SessState where
  shellOpen : Bool
  connected : Bool
  deriving Repr, DecidableEq

/-- One outcome of `await self.websocket.recv()`: a received message or a
`websockets.exceptions.ConnectionClosed`. -/
inductive RecvEvent
  | msg (m : List Char)
  | closed

/-- How the `listen` loop ended. -/
inductive ListenOutcome
  /-- `recv` raised `ConnectionClosed`: caught, `connected` set false. -/
  | normal
  /-- an exception other than `ConnectionClosed` escaped (nothing else is
  caught at lines 80-86). -/
  | exn
  /-- the `while self.open` condition was observed false. -/
  | loopDone
  /-- the supplied event trace ran out while the loop was still blocked
  in `recv`. -/
  | pending
  deriving Repr, DecidableEq

/-- The `try`/`while` body of `listen` (lines 80-86), run over a trace of
recv outcomes.  Only `websockets.exceptions.ConnectionClosed` is caught
(line 85), and only that handler sets `self.connected = False`; an
exception raised inside `onClientInput` escapes with the state
untouched. -/
def listenLoop (jsonDims : List Char → Option (Int × Int))
    (evs : List RecvEvent) (s : SessState) : ListenOutcome × SessState :=
  if s.shellOpen = false then (.loopDone, s)
  else
    match evs with
    | [] => (.pending, s)
    | .closed :: _ => (.normal, { s with connected := false })
    | .msg m :: rest =>
      match onClientInput jsonDims m with
      | none => (.exn, s)
      | some _ => listenLoop jsonDims rest s

/-! ## The registry: `self.terminals` (line 140)

`self.terminals` maps sessionID -> Terminal object; embedded as an
association list.  Python dict semantics: assignment overwrites, `del`
removes, `in` tests key membership. -/

/-- The per-session fields of a `Terminal` object the dispatcher and the
management channel read: `self.connected` (line 25), `self.open`
(lines 24/55) and `self.subshellPID` (line 53). -/
structure TermEntry where
  connected : Bool
  shellOpen : Bool
  subshellPID : Nat
  deriving Repr, DecidableEq

/-- Key list of a dict. -/
def dictKeys {β : Type} (d : List (String × β)) : List String :=
  d.map Prod.fst

/-- `d[k]` as an option (`none` when `k not in d`). -/
def dictGet {β : Type} (d : List (String × β)) (k : String) : Option β :=
  match d with
  | [] => none
  | kv :: rest => if kv.1 = k then some kv.2 else dictGet rest k

/-- `d[k] = v`: dict assignment overwrites any previous binding. -/
def dictSet {β : Type} (d : List (String × β)) (k : String) (v : β) :
    List (String × β) :=
  (k, v) :: d.filter (fun kv => kv.1 ≠ k)

/-- `del d[k]`. -/
def dictDel {β : Type} (d : List (String × β)) (k : String) :
    List (String × β) :=
  d.filter (fun kv => kv.1 ≠ k)

/-! ## SessionID generation: `ConnectionDispatcher.generateSessionID`
(lines 151-157)

`secrets.token_hex(4)` draws 4 random bytes and renders them as 8
lowercase hex characters; the randomness is embedded as an explicit list
of byte draws. -/

/-- The sixteen lowercase hex digits, in value order. -/
def hexDigits : List Char := "0123456789abcdef".data

/-- `n`-th lowercase hex digit (used with `n < 16`). -/
def hexDigitChar (n : Nat) : Char := hexDigits.getD n '0'

/-- One byte rendered as two lowercase hex characters, as
`binascii.hexlify` does inside `secrets.token_hex`. -/
def byteToHex (b : Nat) : List Char :=
  [hexDigitChar (b / 16 % 16), hexDigitChar (b % 16)]

/-- `secrets.token_hex(len(bytes))` on the given byte draw. -/
def tokenHex (bytes : List Nat) : List Char :=
  (bytes.map byteToHex).flatten

/-- `c` is a lowercase hexadecimal character. -/
def isLowerHexChar (c : Char) : Bool :=
  ('0' ≤ c && c ≤ '9') || ('a' ≤ c && c ≤ 'f')

/-- `generateSessionID` (lines 151-157): keep sampling
`secrets.token_hex(4)` until the result is not a key of
`self.terminals`.  `draws` is the stream of 4-byte random draws; `none`
means the stream was exhausted with every candidate colliding (the
Python loop would still be running). -/
def generateSessionID (draws : List (List Nat))
    (terminals : List (String × TermEntry)) : Option String :=
  match draws with
  | [] => none
  | d :: rest =>
    let sessionID : String := ⟨tokenHex d⟩
    if sessionID ∈ dictKeys terminals then generateSessionID rest terminals
    else some sessionID

/-! ## Terminal construction and dispatch:
`Terminal.__init__` (lines 21-29), `Terminal.setNewConnection`
(lines 31-35), `ConnectionDispatcher.terminalHandler` (lines 224-249) -/

/-- The entry a fresh `Terminal(sessionID, websocket)` registers:
`connected = True` (line 25) and, after `startTty`, `open = True`
(line 55) with the forked shell's PID (line 53). -/
def newTerminal (pid : Nat) : TermEntry :=
  { connected := true, shellOpen := true, subshellPID := pid }

/-- `setNewConnection` (lines 31-35): replace the websocket and set
`connected = True`. -/
def setNewConnection (e : TermEntry) : TermEntry :=
  { e with connected := true }

/-- What `terminalHandler` decided to do with the connection. -/
inductive TermAction where
  /-- a fresh session with this ID was created and registered, bound to
  this peer, and `listen` runs on it. -/
  | createNew (newID : String)
  /-- the existing session was re-attached to this peer via
  `setNewConnection`, and `listen` runs on it. -/
  | attach (id : String)
  /-- `websocket.close()` without creating or attaching anything. -/
  | closeConn
  deriving Repr, DecidableEq

/-- `terminalHandler(websocket, config)` (lines 224-249).  `config` is
the handshake's `sessionID` field (`none` when absent); `pid` is the PID
the forked shell would get; `draws` feeds `generateSessionID`.  Returns
the action taken and the updated `self.terminals`; `none` only when a
fresh ID was needed and the draw stream ran out. -/
def terminalHandler (draws : List (List Nat)) (config : Option String)
    (terminals : List (String × TermEntry)) (pid : Nat) :
    Option (TermAction × List (String × TermEntry)) :=
  match config with
  | none => some (.closeConn, terminals)
  | some sid =>
    if sid = "new" then
      (generateSessionID draws terminals).map fun newID =>
        (.createNew newID, dictSet terminals newID (newTerminal pid))
    else
      match dictGet terminals sid with
      | some entry =>
        if entry.connected = false then
          some (.attach sid, dictSet terminals sid (setNewConnection entry))
        else some (.closeConn, terminals)
      | none => some (.closeConn, terminals)

/-! ## Registry lifecycle and snapshots: `Terminal.waitSubshell`
(lines 97-108), the `poll` snapshot (lines 266-275) and
`pushStateChange` (lines 311-334) -/

/-- The snapshot serialized both by a `poll` response (lines 266-277)
and by `pushStateChange` (lines 316-326): every registered terminal with
`open = True`, listed as `(sessionID, connected)`. -/
def snapshot (terminals : List (String × TermEntry)) :
    List (String × Bool) :=
  (terminals.filter (fun kv => kv.2.shellOpen)).map
    (fun kv => (kv.1, kv.2.connected))

/-- `waitSubshell`'s effect on the registry after `waitpid` returns
(lines 100-106): first `self.open = False`, then
`del connectionDispatcher.terminals[self.sessionID]`; only after that is
`pushStateChange()` called (line 107), so the broadcast carries
`snapshot (waitSubshell id terminals)`. -/
def waitSubshell (id : String) (terminals : List (String × TermEntry)) :
    List (String × TermEntry) :=
  dictDel
    (match dictGet terminals id with
     | some e => dictSet terminals id { e with shellOpen := false }
     | none => terminals)
    id

/-- The registry mutations the program performs, in source order:
registration of a fresh session (lines 236-237), re-attachment
(lines 240-242 via `setNewConnection`), detach when `listen` catches
`ConnectionClosed` (line 86), and the reaper (lines 100-106). -/
inductive RegistryOp where
  | register (id : String) (pid : Nat)
  | attach (id : String)
  | detach (id : String)
  | reap (id : String)

/-- Apply one registry mutation. -/
def applyOp (terminals : List (String × TermEntry)) :
    RegistryOp → List (String × TermEntry)
  | .register id pid => dictSet terminals id (newTerminal pid)
  | .attach id =>
    match dictGet terminals id with
    | some e => dictSet terminals id (setNewConnection e)
    | none => terminals
  | .detach id =>
    match dictGet terminals id with
    | some e => dictSet terminals id { e with connected := false }
    | none => terminals
  | .reap id => waitSubshell id terminals

/-- A whole history of registry mutations, from the empty registry a
fresh `ConnectionDispatcher` starts with (line 140). -/
def runOps (ops : List RegistryOp) : List (String × TermEntry) :=
  ops.foldl applyOp []

/-! ## Management channel: `ConnectionDispatcher.managementHandler`
(lines 251-309) -/

/-- A decoded management request: `poll`, `kill` (with its `sessionID`
field, absent allowed), an unknown `type`, or a message whose JSON
decode / `request['type']` lookup raised (line 261 catches it). -/
inductive MgmtRequest where
  | poll
  | kill (sessionID : Option String)
  | unknown
  | malformed

/-- A response message, abstracting the `json.dumps` payloads of
lines 277 and 288-299: `killSuccess id` is
`{"response":"kill","result":"success","sessionID":id}`, `killError id`
is `{"response":"kill","result":"error","sessionID":id,
"message":"sessionID not found"}`, and `pollResp r` is
`{"response":"poll","result":r}`. -/
inductive MgmtResponse where
  | pollResp (result : List (String × Bool))
  | killSuccess (sessionID : String)
  | killError (sessionID : String)
  deriving Repr, DecidableEq

/-- The `kill` branch (lines 280-299): if the `sessionID` is registered
and its terminal is `open`, SIGTERM is sent to its `subshellPID` and the
success response is prepared; else no signal is sent and the error
response is prepared.  First component: the PID signalled, if any. -/
def handleKill (terminals : List (String × TermEntry)) (id : String) :
    Option Nat × MgmtResponse :=
  match dictGet terminals id with
  | some e =>
    if e.shellOpen then (some e.subshellPID, .killSuccess id)
    else (none, .killError id)
  | none => (none, .killError id)

/-- One iteration of the `managementHandler` loop (lines 255-306): the
response sent (if any) and the PID signalled (if any).  Malformed,
unknown-type, and `sessionID`-less kill requests are skipped with
`continue`; nothing in the loop body closes the connection. -/
def mgmtStep (terminals : List (String × TermEntry)) :
    MgmtRequest → Option MgmtResponse × Option Nat
  | .malformed => (none, none)
  | .unknown => (none, none)
  | .poll => (some (.pollResp (snapshot terminals)), none)
  | .kill none => (none, none)
  | .kill (some id) =>
    let r := handleKill terminals id
    (some r.2, r.1)

/-- The handler loop over a trace of decoded requests: it processes
every request — only a `ConnectionClosed` from `recv` (line 308) ends
it, never a request. -/
def managementHandler (terminals : List (String × TermEntry))
    (reqs : List MgmtRequest) : List (Option MgmtResponse × Option Nat) :=
  reqs.map (mgmtStep terminals)

/-! ## Output pump: `Terminal.pushTtyOutput` (lines 110-118)

`while self.open:` with a bare `except: pass` around the read, decode
and send.  `self.open` is flipped by the reaper thread, so the loop is
run against a schedule listing, per iteration, the value of `self.open`
observed at the loop head and the outcome of the iteration body. -/

/-- Outcome of one pump iteration body: a chunk read, decoded and
enqueued, or any exception (`os.read` on a closed PTY, a UTF-8 decode
error, a failed enqueue) swallowed by `except: pass` (lines 117-118). -/
inductive PumpEvent where
  | chunk (data : List Char)
  | err

/-- `pushTtyOutput` over a schedule.  Result: the chunks forwarded in
order, whether the loop terminated within the schedule, and whether the
PTY master fd is closed at the end (the body never closes `self.ttyFd`,
so the flag is simply carried through). -/
def pushTtyOutput (sched : List (Bool × PumpEvent)) (fdClosed : Bool) :
    List (List Char) × Bool × Bool :=
  match sched with
  | [] => ([], false, fdClosed)
  | (openNow, ev) :: rest =>
    if openNow = false then ([], true, fdClosed)
    else
      let r := pushTtyOutput rest fdClosed
      match ev with
      | .chunk d => (d :: r.1, r.2.1, r.2.2)
      | .err => r

/-! ## Greeting order: `Terminal.startTty` (lines 37-64) and
`Terminal.listen` (lines 72-89)

`Terminal.__init__` calls `startTty`, which starts the output-pump
thread (lines 58-59) before the constructor returns; the SessionID
greeting is sent only later, by `listen` (line 78).  The pump thread
and the coroutine that runs `listen` race to enqueue their sends onto
the event loop, so the delivery order of the first frames is whichever
interleaving the scheduler produces. -/

/-- A frame delivered to the peer on the `/term` channel. -/
inductive Frame where
  | greeting (id : String)
  | chunk (data : String)
  deriving Repr, DecidableEq

/-- The observable connection trace: whether the pump thread is running,
whether `listen` has sent the greeting yet, and the frames delivered so
far, in order. -/
structure ConnTrace where
  pumpStarted : Bool
  greeted : Bool
  frames : List Frame
  deriving Repr, DecidableEq

/-- The state right after `Terminal.__init__` returns: `startTty` has
already started the pump thread (lines 58-59), and the greeting of
line 78 has not been sent yet. -/
def createState : ConnTrace :=
  { pumpStarted := true, greeted := false, frames := [] }

/-- Interleaved steps of the two senders.  `pump` is one iteration of
`pushTtyOutput` forwarding a chunk (lines 113-116) — enabled whenever
the pump thread is running; `greet` is `listen`'s
`self.send(self.sessionID)` (line 78) — nothing in the code forces it to
run before the pump's first send. -/
inductive SessionStep (id : String) : ConnTrace → ConnTrace → Prop where
  | pump (d : String) (s : ConnTrace) (h : s.pumpStarted = true) :
      SessionStep id s { s with frames := s.frames ++ [Frame.chunk d] }
  | greet (s : ConnTrace) (h : s.greeted = false) :
      SessionStep id s
        { s with greeted := true, frames := s.frames ++ [Frame.greeting id] }

/-! ## Origin check: `ConnectionDispatcher.handler` (lines 188-195) -/

/-- `self.allowedOrigins` (lines 144-149). -/
def allowedOrigins (contentServerPort : Nat) : List String :=
  ["http://localhost:" ++ toString contentServerPort,
   "https://localhost:" ++ toString contentServerPort,
   "http://127.0.0.1:" ++ toString contentServerPort,
   "https://127.0.0.1:" ++ toString contentServerPort]

/-- How the first lines of `handler` dispose of a connection. -/
inductive HandlerStep where
  /-- `websocket.request_headers["Origin"]` raised a lookup error that
  nothing in `handler` catches. -/
  | uncaughtKeyError
  /-- `await websocket.close()` at line 194. -/
  | closedSilently
  /-- fell through to the handshake recv at line 198. -/
  | proceedAuth
  deriving Repr, DecidableEq

/-- The origin gate (lines 192-195).  `request_headers["Origin"]` is an
unguarded mapping access: with no `Origin` header it raises; with one
not in the allow-list the connection is closed; otherwise `handler`
proceeds. -/
def handlerOriginCheck (originHeader : Option String)
    (allowed : List String) : HandlerStep :=
  match originHeader with
  | none => .uncaughtKeyError
  | some o => if o ∈ allowed then .proceedAuth else .closedSilently

end TerminalServer

namespace TerminalServer

/-! ## C1: validateAccessKey theorems -/

/-- Membership of a key with an unexpired timestamp decides the sweep. -/
theorem mem_sweepExpired (now : Nat) (v : List (String × Nat))
    (kv : String × Nat) : kv ∈ sweepExpired now v ↔ kv ∈ v ∧ now ≤ kv.2 := by
  simp [sweepExpired, Nat.not_lt, List.mem_filter]

/-- `validateAccessKey` never adds keys to the vault. -/
theorem validateAccessKey_keys_subset (now : Nat) (k : String)
    (v : List (String × Nat)) :
    vaultKeys (validateAccessKey now k v).2 ⊆ vaultKeys v := by
  intro x hx
  unfold validateAccessKey at hx
  by_cases h : (sweepExpired now v).any (fun kv => kv.1 = k)
  · simp only [h, if_pos] at hx
    rcases List.mem_map.mp hx with ⟨kv, hkv, rfl⟩
    have hkv' : kv ∈ sweepExpired now v := (List.mem_filter.mp hkv).1
    exact List.mem_map.mpr ⟨kv, ((mem_sweepExpired now v kv).mp hkv').1, rfl⟩
  · simp only [h, if_neg, Bool.false_eq_true, not_false_iff] at hx
    rcases List.mem_map.mp hx with ⟨kv, hkv, rfl⟩
    exact List.mem_map.mpr ⟨kv, ((mem_sweepExpired now v kv).mp hkv).1, rfl⟩

/-- A key absent from the vault stays absent and is always refused. -/
theorem validateAccessKey_absent (now : Nat) (k k' : String)
    (v : List (String × Nat)) (h : k ∉ vaultKeys v) :
    ((k = k' → (validateAccessKey now k' v).1 = false) ∧
      k ∉ vaultKeys (validateAccessKey now k' v).2) := by
  constructor
  · rintro rfl
    unfold validateAccessKey
    have hnone : (sweepExpired now v).any (fun kv => kv.1 = k) = false := by
      rw [List.any_eq_false]
      intro kv hkv
      have hkv' := ((mem_sweepExpired now v kv).mp hkv).1
      simp only [decide_eq_true_eq]
      intro heq
      exact h (List.mem_map.mpr ⟨kv, hkv', heq⟩)
    simp [hnone]
  · intro hx
    exact h (validateAccessKey_keys_subset now k' v hx)

/-- A key absent from the vault is refused by every later consume. -/
theorem runConsumes_absent (ops : List (Nat × String)) (k : String)
    (v : List (String × Nat)) (h : k ∉ vaultKeys v) :
    k ∉ vaultKeys (runConsumes ops v) := by
  induction ops generalizing v with
  | nil => exact h
  | cons op rest ih =>
    exact ih _ ((validateAccessKey_absent op.1 k op.2 v h).2)

/-- C1. `validateAccessKey` (the spec's `TokenVault.consume`) sweeps
expired entries and returns true iff the key is present with an unexpired
timestamp; on success the key is removed, so it is never accepted twice:
after a successful consume every later consume of the same key (through
any interleaving of other consumes) returns false; and a key issued at
time `t` is refused at every time strictly later than `t + 3600`. -/
theorem consume_spec (now : Nat) (k : String) (v : List (String × Nat)) :
    ((validateAccessKey now k v).1 = true ↔
        ∃ e, (k, e) ∈ v ∧ now ≤ e) ∧
    ((validateAccessKey now k v).1 = true →
      ∀ ops now', (validateAccessKey now' k
        (runConsumes ops (validateAccessKey now k v).2)).1 = false) ∧
    (∀ t v₀, t + 3600 < now →
      (validateAccessKey now k (generateAccessKey t k v₀)).1 = false) := by
  refine ⟨?_, ?_, ?_⟩
  · unfold validateAccessKey
    by_cases h : (sweepExpired now v).any (fun kv => kv.1 = k)
    · simp only [h, if_pos, true_iff]
      rcases List.any_eq_true.mp h with ⟨kv, hkv, hk⟩
      have hk' : kv.1 = k := by simpa using hk
      rcases (mem_sweepExpired now v kv).mp hkv with ⟨hmem, hexp⟩
      exact ⟨kv.2, by rw [← hk']; exact ⟨hmem, hexp⟩⟩
    · simp only [h, if_neg, Bool.false_eq_true, not_false_iff, false_iff]
      rintro ⟨e, hmem, hexp⟩
      rw [Bool.not_eq_true, List.any_eq_false] at h
      exact absurd (by simp)
        (h (k, e) ((mem_sweepExpired now v (k, e)).mpr ⟨hmem, hexp⟩))
  · intro htrue ops now'
    have hrm : k ∉ vaultKeys (validateAccessKey now k v).2 := by
      unfold validateAccessKey at htrue ⊢
      by_cases h : (sweepExpired now v).any (fun kv => kv.1 = k)
      · simp only [h, if_pos]
        intro hx
        rcases List.mem_map.mp hx with ⟨kv, hkv, rfl⟩
        have hne : kv.1 ≠ kv.1 := by simpa using (List.mem_filter.mp hkv).2
        exact hne rfl
      · simp [h] at htrue
    have habs := runConsumes_absent ops k _ hrm
    have := (validateAccessKey_absent now' k k _ habs).1 rfl
    exact this
  · intro t v₀ hlt
    unfold validateAccessKey
    have hnone : (sweepExpired now (generateAccessKey t k v₀)).any
        (fun kv => kv.1 = k) = false := by
      rw [List.any_eq_false]
      intro kv hkv
      rcases (mem_sweepExpired now _ kv).mp hkv with ⟨hmem, hexp⟩
      simp only [decide_eq_true_eq]
      intro heq
      unfold generateAccessKey at hmem
      rcases List.mem_cons.mp hmem with h1 | h2
      · rw [h1] at hexp
        exact absurd hexp (by simpa using hlt)
      · exact absurd heq (by simpa using (List.mem_filter.mp h2).2)
    simp [hnone]

/-- Witness for C1 at concrete inputs: the key `"a"` issued at time 0 is
accepted at time 3600, and at time 3601 it is refused. -/
theorem consume_spec_witness :
    (validateAccessKey 3600 "a" (generateAccessKey 0 "a" [])).1 = true ∧
    (validateAccessKey 3601 "a" (generateAccessKey 0 "a" [])).1 = false := by
  constructor
  · exact ((consume_spec 3600 "a" (generateAccessKey 0 "a" [])).1).mpr
      ⟨3600, by decide, by decide⟩
  · exact (consume_spec 3601 "a" []).2.2 0 [] (by decide)

/-! ## C2: resize validation -/

/-- `resizeTerminal` only ever issues the ioctl with exactly the
dimensions it was given. -/
theorem resizeTerminal_some (row col : Int) (p : Int × Int)
    (h : resizeTerminal row col = some p) : p = (row, col) := by
  unfold resizeTerminal at h
  split at h
  · exact (Option.some.inj h).symm
  · exact absurd h (by simp)

/-- C2 counterexample: `resizeTerminal(0, 24)` is not rejected — the
claim says non-positive (zero or negative) dimensions are rejected with
no window-size update, but `struct.pack("HHHH", 0, 24, 0, 0)` accepts 0,
so the `TIOCSWINSZ` ioctl is issued with `rows = 0`; likewise the client
message `r{"rows":0,"cols":24}` (whose payload parses to `(0, 24)`)
reaches the ioctl. -/
theorem resize_zero_not_rejected_cex :
    resizeTerminal 0 24 = some (0, 24) ∧
    onClientInput (fun _ => some (0, 24))
      ('r' :: ("\x7b\x22rows\x22:0,\x22cols\x22:24\x7d".data)) =
      some (.winResize 0 24) := by
  exact ⟨rfl, rfl⟩

/-- C2 (amended).  `resizeTerminal` rejects exactly the dimensions that
do not fit an unsigned 16-bit field: it raises (and issues no ioctl) iff
`rows` or `cols` is negative or ≥ 65536; every value in `0..65535` —
including 0 — is forwarded unchanged to the `TIOCSWINSZ` ioctl, and the
client `r`-message path forwards whatever dimensions its JSON payload
parses to, with no positivity check of its own. -/
theorem resize_forwarding_spec (row col : Int) :
    (resizeTerminal row col = none ↔
      row < 0 ∨ 65536 ≤ row ∨ col < 0 ∨ 65536 ≤ col) ∧
    (0 ≤ row → row < 65536 → 0 ≤ col → col < 65536 →
      resizeTerminal row col = some (row, col)) ∧
    (∀ jsonDims payload, jsonDims payload = some (row, col) →
      onClientInput jsonDims ('r' :: payload) =
        (resizeTerminal row col).map fun rc => InputEffect.winResize rc.1 rc.2) := by
  refine ⟨?_, ?_, ?_⟩
  · by_cases hP : (0:Int) ≤ row ∧ row < 65536 ∧ (0:Int) ≤ col ∧ col < 65536 ∧
        (0:Int) ≤ 0 ∧ (0:Int) < 65536 ∧ (0:Int) ≤ 0 ∧ (0:Int) < 65536
    · simp only [resizeTerminal, packHHHH, hP, if_pos]
      constructor
      · intro h
        exact absurd h (by simp)
      · intro h
        omega
    · simp only [resizeTerminal, packHHHH, hP, if_neg, not_false_iff]
      constructor
      · intro _
        omega
      · intro _
        trivial
  · intro h1 h2 h3 h4
    have hP : (0:Int) ≤ row ∧ row < 65536 ∧ (0:Int) ≤ col ∧ col < 65536 ∧
        (0:Int) ≤ 0 ∧ (0:Int) < 65536 ∧ (0:Int) ≤ 0 ∧ (0:Int) < 65536 := by
      omega
    unfold resizeTerminal packHHHH
    rw [if_pos hP]
  · intro jsonDims payload hparse
    cases hr : resizeTerminal row col with
    | none => simp [onClientInput, hparse, hr]
    | some rc => simp [onClientInput, hparse, hr, resizeTerminal_some row col rc hr]

/-- Witness for C2's amended theorem at concrete dimensions 24×80. -/
theorem resize_forwarding_spec_witness :
    resizeTerminal 24 80 = some (24, 80) :=
  (resize_forwarding_spec 24 80).2.1 (by decide) (by decide) (by decide)
    (by decide)

/-! ## C3: the `listen` loop -/

/-- When `self.open` is already false, the `while` condition fails at
once, for any pending trace. -/
theorem listenLoop_shell_closed (jsonDims : List Char → Option (Int × Int))
    (evs : List RecvEvent) (s : SessState) (hs : s.shellOpen = false) :
    listenLoop jsonDims evs s = (ListenOutcome.loopDone, s) := by
  cases evs with
  | nil => simp [listenLoop, hs]
  | cons ev rest => cases ev <;> simp [listenLoop, hs]

/-- One unfolding of the loop on a received message, when the shell is
open. -/
theorem listenLoop_cons_msg (jsonDims : List Char → Option (Int × Int))
    (m : List Char) (rest : List RecvEvent) (s : SessState)
    (hs : ¬ s.shellOpen = false) :
    listenLoop jsonDims (RecvEvent.msg m :: rest) s =
      match onClientInput jsonDims m with
      | none => (ListenOutcome.exn, s)
      | some _ => listenLoop jsonDims rest s := by
  simp [listenLoop, hs]

/-- The `listen` loop never changes `self.open`. -/
theorem listenLoop_shellOpen (jsonDims : List Char → Option (Int × Int))
    (evs : List RecvEvent) (s : SessState) :
    (listenLoop jsonDims evs s).2.shellOpen = s.shellOpen := by
  induction evs with
  | nil => by_cases h : s.shellOpen = false <;> simp [listenLoop, h]
  | cons ev rest ih =>
    by_cases h : s.shellOpen = false
    · simp [listenLoop_shell_closed jsonDims _ s h]
    · cases ev with
      | closed => simp [listenLoop, h]
      | msg m =>
        rw [listenLoop_cons_msg jsonDims m rest s h]
        cases hoc : onClientInput jsonDims m with
        | none => simp
        | some e => simpa using ih

/-- A normal return of the `listen` loop (recv raised
`ConnectionClosed`) leaves `connected = false`. -/
theorem listenLoop_normal_connected (jsonDims : List Char → Option (Int × Int))
    (evs : List RecvEvent) (s : SessState)
    (h : (listenLoop jsonDims evs s).1 = ListenOutcome.normal) :
    (listenLoop jsonDims evs s).2.connected = false := by
  induction evs with
  | nil =>
    by_cases hs : s.shellOpen = false <;> simp [listenLoop, hs] at h
  | cons ev rest ih =>
    by_cases hs : s.shellOpen = false
    · rw [listenLoop_shell_closed jsonDims _ s hs] at h
      exact absurd h (by simp)
    · cases ev with
      | closed => simp [listenLoop, hs]
      | msg m =>
        rw [listenLoop_cons_msg jsonDims m rest s hs] at h ⊢
        cases hoc : onClientInput jsonDims m with
        | none => rw [hoc] at h; exact absurd h (by simp)
        | some e => rw [hoc] at h; exact ih h

/-- An exception exit of the `listen` loop leaves the session state
exactly as it was: in particular `connected` is not reset. -/
theorem listenLoop_exn_state (jsonDims : List Char → Option (Int × Int))
    (evs : List RecvEvent) (s : SessState)
    (h : (listenLoop jsonDims evs s).1 = ListenOutcome.exn) :
    (listenLoop jsonDims evs s).2 = s := by
  induction evs with
  | nil =>
    by_cases hs : s.shellOpen = false <;> simp [listenLoop, hs] at h ⊢
  | cons ev rest ih =>
    by_cases hs : s.shellOpen = false
    · rw [listenLoop_shell_closed jsonDims _ s hs]
    · cases ev with
      | closed => simp [listenLoop, hs] at h
      | msg m =>
        rw [listenLoop_cons_msg jsonDims m rest s hs] at h ⊢
        cases hoc : onClientInput jsonDims m with
        | none => rfl
        | some e => rw [hoc] at h; exact ih h

/-- If no received message makes `onClientInput` raise, the loop never
exits through the exception path. -/
theorem listenLoop_no_exn (jsonDims : List Char → Option (Int × Int))
    (evs : List RecvEvent) (s : SessState)
    (h : ∀ m, RecvEvent.msg m ∈ evs → onClientInput jsonDims m ≠ none) :
    (listenLoop jsonDims evs s).1 ≠ ListenOutcome.exn := by
  induction evs with
  | nil =>
    by_cases hs : s.shellOpen = false <;> simp [listenLoop, hs]
  | cons ev rest ih =>
    by_cases hs : s.shellOpen = false
    · rw [listenLoop_shell_closed jsonDims _ s hs]
      simp
    · cases ev with
      | closed => simp [listenLoop, hs]
      | msg m =>
        rw [listenLoop_cons_msg jsonDims m rest s hs]
        cases hoc : onClientInput jsonDims m with
        | none => exact absurd hoc (h m (by simp))
        | some e =>
          exact ih (fun m' hm' => h m' (List.mem_cons_of_mem _ hm'))

/-- C3 counterexample: a single client message `rx` whose payload is not
valid JSON makes `json.loads` raise inside `onClientInput`; the
exception is not `ConnectionClosed`, so `listen` does not catch it and
exits by the exception path with `connected` (the spec's `peerAttached`)
still `true` — refuting the claim that no client message can make
`serve` exit on a path that leaves `peerAttached` true. -/
theorem listen_malformed_resize_cex :
    listenLoop (fun _ => none) [RecvEvent.msg ('r' :: 'x' :: [])]
      ⟨true, true⟩ = (ListenOutcome.exn, ⟨true, true⟩) := by
  rfl

/-- C3 (amended).  The `listen` loop never changes `shellOpen` (the
shell is never terminated by `serve`); when it returns normally after a
recv failure it has set `connected = false`; when every dispatched
message is handled without an exception the loop never exits by the
exception path; but when a message raises (e.g. a malformed `r`
payload), the loop exits with the state — `connected` included —
unchanged. -/
theorem serve_loop_spec (jsonDims : List Char → Option (Int × Int))
    (evs : List RecvEvent) (s : SessState) :
    ((listenLoop jsonDims evs s).2.shellOpen = s.shellOpen) ∧
    ((listenLoop jsonDims evs s).1 = ListenOutcome.normal →
      (listenLoop jsonDims evs s).2.connected = false) ∧
    ((listenLoop jsonDims evs s).1 = ListenOutcome.exn →
      (listenLoop jsonDims evs s).2 = s) ∧
    ((∀ m, RecvEvent.msg m ∈ evs → onClientInput jsonDims m ≠ none) →
      (listenLoop jsonDims evs s).1 ≠ ListenOutcome.exn) :=
  ⟨listenLoop_shellOpen jsonDims evs s,
   listenLoop_normal_connected jsonDims evs s,
   listenLoop_exn_state jsonDims evs s,
   listenLoop_no_exn jsonDims evs s⟩

/-! ## Dict (association-list) lemmas shared by the registry claims -/

/-- A successful `dictGet` exhibits a member of the dict. -/
theorem dictGet_mem {β : Type} (d : List (String × β)) (k : String) (v : β)
    (h : dictGet d k = some v) : (k, v) ∈ d := by
  induction d with
  | nil => simp [dictGet] at h
  | cons kv rest ih =>
    simp only [dictGet] at h
    split at h
    next heq =>
      cases h
      subst heq
      exact List.mem_cons_self _ _
    next heq => exact List.mem_cons_of_mem _ (ih h)

/-- Members of an updated dict are the new binding or old members. -/
theorem mem_dictSet {β : Type} (d : List (String × β)) (k : String) (v : β)
    (kv : String × β) (h : kv ∈ dictSet d k v) : kv = (k, v) ∨ kv ∈ d := by
  simp only [dictSet, List.mem_cons, List.mem_filter] at h
  rcases h with h | h
  · exact Or.inl h
  · exact Or.inr h.1

/-- Members of `dictDel d k` are members of `d` with a different key. -/
theorem mem_dictDel {β : Type} (d : List (String × β)) (k : String)
    (kv : String × β) (h : kv ∈ dictDel d k) : kv ∈ d ∧ kv.1 ≠ k := by
  simp only [dictDel, List.mem_filter] at h
  exact ⟨h.1, by simpa using h.2⟩

/-- Deleting a key gives a sublist of the original key list. -/
theorem dictDel_keys_sublist {β : Type} (d : List (String × β)) (k : String) :
    List.Sublist (dictKeys (dictDel d k)) (dictKeys d) := by
  induction d with
  | nil => simp [dictDel, dictKeys]
  | cons kv rest ih =>
    by_cases h : kv.1 = k
    · have hdel : dictDel (kv :: rest) k = dictDel rest k := by
        simp [dictDel, List.filter_cons, h]
      rw [hdel]
      exact ih.trans (List.sublist_cons_self _ _)
    · have hdel : dictDel (kv :: rest) k = kv :: dictDel rest k := by
        simp [dictDel, List.filter_cons, h]
      rw [hdel]
      exact List.Sublist.cons₂ _ ih

/-- The deleted key is gone. -/
theorem dictDel_key_not_mem {β : Type} (d : List (String × β)) (k : String) :
    k ∉ dictKeys (dictDel d k) := by
  intro h
  rcases List.mem_map.mp h with ⟨kv, hkv, hfst⟩
  exact (mem_dictDel d k kv hkv).2 hfst

/-- Updating a dict with a key preserves distinctness of the keys: no
two registered sessions ever share an ID. -/
theorem dictSet_nodupKeys {β : Type} (d : List (String × β)) (k : String)
    (v : β) (h : (dictKeys d).Nodup) : (dictKeys (dictSet d k v)).Nodup := by
  have hkeys : dictKeys (dictSet d k v) = k :: dictKeys (dictDel d k) := rfl
  rw [hkeys]
  exact List.Nodup.cons (dictDel_key_not_mem d k)
    (List.Nodup.sublist (dictDel_keys_sublist d k) h)

/-! ## C8: session-ID generation -/

/-- Each hex digit produced by `hexDigitChar` on `0..15` is a lowercase
hex character. -/
theorem hexDigitChar_lowerHex (n : Nat) (h : n < 16) :
    isLowerHexChar (hexDigitChar n) = true := by
  have hfin : ∀ m : Fin 16, isLowerHexChar (hexDigitChar m.val) = true := by
    decide
  exact hfin ⟨n, h⟩

/-- `token_hex` renders two characters per byte. -/
theorem tokenHex_length (bytes : List Nat) :
    (tokenHex bytes).length = 2 * bytes.length := by
  induction bytes with
  | nil => rfl
  | cons b rest ih =>
    simp only [tokenHex, List.map_cons, List.flatten_cons,
      List.length_append] at *
    simp only [byteToHex, List.length_cons, List.length_nil, List.length_cons]
    omega

/-- Every character `token_hex` renders is lowercase hex. -/
theorem tokenHex_lowerHex (bytes : List Nat) (c : Char)
    (hc : c ∈ tokenHex bytes) : isLowerHexChar c = true := by
  induction bytes with
  | nil => simp [tokenHex] at hc
  | cons b rest ih =>
    simp only [tokenHex, List.map_cons, List.flatten_cons,
      List.mem_append] at hc
    rcases hc with h | h
    · simp only [byteToHex, List.mem_cons, List.not_mem_nil, or_false] at h
      rcases h with h | h <;> subst h <;>
        exact hexDigitChar_lowerHex _ (Nat.mod_lt _ (by norm_num))
    · exact ih h

/-- A returned session ID is fresh and comes from one of the draws. -/
theorem generateSessionID_fresh (draws : List (List Nat))
    (terminals : List (String × TermEntry)) (sid : String)
    (h : generateSessionID draws terminals = some sid) :
    sid ∉ dictKeys terminals ∧ ∃ d ∈ draws, sid = ⟨tokenHex d⟩ := by
  induction draws with
  | nil => simp [generateSessionID] at h
  | cons d rest ih =>
    simp only [generateSessionID] at h
    split at h
    next hm =>
      rcases ih h with ⟨h1, d', hd', he⟩
      exact ⟨h1, d', List.mem_cons_of_mem _ hd', he⟩
    next hm =>
      cases h
      exact ⟨hm, d, List.mem_cons_self _ _, rfl⟩

/-- C8.  Every session ID that `generateSessionID` returns from a stream
of 4-byte draws is exactly 8 lowercase hexadecimal characters and is
distinct from the ID of every registered session; registering it keeps
the registry's IDs pairwise distinct, so no two live sessions share an
ID. -/
theorem generateSessionID_spec (draws : List (List Nat))
    (terminals : List (String × TermEntry)) (sid : String)
    (hd : ∀ d ∈ draws, d.length = 4)
    (h : generateSessionID draws terminals = some sid) :
    sid.length = 8 ∧ (∀ c ∈ sid.data, isLowerHexChar c = true) ∧
    sid ∉ dictKeys terminals ∧
    (∀ e, (dictKeys terminals).Nodup →
      (dictKeys (dictSet terminals sid e)).Nodup) := by
  rcases generateSessionID_fresh draws terminals sid h with ⟨hfresh, d, hdm, hsid⟩
  subst hsid
  refine ⟨?_, ?_, hfresh, fun e hnd => dictSet_nodupKeys terminals _ e hnd⟩
  · show (tokenHex d).length = 8
    rw [tokenHex_length, hd d hdm]
  · intro c hc
    exact tokenHex_lowerHex d c hc

/-- Witness for C8 on the single draw `de ad be ef` against an empty
registry. -/
theorem generateSessionID_spec_witness :
    (("deadbeef" : String).length = 8 ∧
      (∀ c ∈ ("deadbeef" : String).data, isLowerHexChar c = true) ∧
      ("deadbeef" : String) ∉ dictKeys ([] : List (String × TermEntry)) ∧
      (∀ e, (dictKeys ([] : List (String × TermEntry))).Nodup →
        (dictKeys (dictSet ([] : List (String × TermEntry))
          "deadbeef" e)).Nodup)) :=
  generateSessionID_spec [[222, 173, 190, 239]] [] "deadbeef"
    (by intro d hd; simp only [List.mem_singleton] at hd; subst hd; rfl)
    (by decide)

/-! ## C4: terminal-connection dispatch -/

/-- C4.  `terminalHandler`: a missing `sessionID` field closes the
connection with the registry untouched; `"new"` creates a fresh session
— its ID not previously registered — registers it with
`connected = true` and `shellOpen = true`, bound to this peer's PID'd
shell; a registered, unattached `sessionID` is re-attached via
`setNewConnection`; and a registered-but-attached or unknown
`sessionID` closes the connection with the registry untouched. -/
theorem terminalHandler_spec (draws : List (List Nat))
    (terminals : List (String × TermEntry)) (pid : Nat) :
    (terminalHandler draws none terminals pid =
      some (TermAction.closeConn, terminals)) ∧
    (∀ act ts',
      terminalHandler draws (some "new") terminals pid = some (act, ts') →
      ∃ newID, newID ∉ dictKeys terminals ∧ act = TermAction.createNew newID ∧
        ts' = dictSet terminals newID (newTerminal pid)) ∧
    (∀ sid e, sid ≠ "new" → dictGet terminals sid = some e →
      e.connected = false →
      terminalHandler draws (some sid) terminals pid =
        some (TermAction.attach sid,
          dictSet terminals sid (setNewConnection e))) ∧
    (∀ sid, sid ≠ "new" → dictGet terminals sid = none →
      terminalHandler draws (some sid) terminals pid =
        some (TermAction.closeConn, terminals)) ∧
    (∀ sid e, sid ≠ "new" → dictGet terminals sid = some e →
      e.connected = true →
      terminalHandler draws (some sid) terminals pid =
        some (TermAction.closeConn, terminals)) := by
  refine ⟨rfl, ?_, ?_, ?_, ?_⟩
  · intro act ts' h
    simp only [terminalHandler, if_pos] at h
    cases hgen : generateSessionID draws terminals with
    | none => rw [hgen] at h; exact absurd h (by simp)
    | some newID =>
      rw [hgen] at h
      injection h with h
      rw [Prod.ext_iff] at h
      exact ⟨newID, (generateSessionID_fresh draws terminals newID hgen).1,
        h.1.symm, h.2.symm⟩
  · intro sid e hne hget hconn
    simp [terminalHandler, hne, hget, hconn]
  · intro sid hne hget
    simp [terminalHandler, hne, hget]
  · intro sid e hne hget hconn
    simp [terminalHandler, hne, hget, hconn]

/-- Witness for C4: re-attaching a registered, unattached session. -/
theorem terminalHandler_spec_witness :
    terminalHandler [] (some "abc") [("abc", ⟨false, true, 7⟩)] 42 =
      some (TermAction.attach "abc",
        dictSet [("abc", ⟨false, true, 7⟩)] "abc"
          (setNewConnection ⟨false, true, 7⟩)) :=
  (terminalHandler_spec [] [("abc", ⟨false, true, 7⟩)] 42).2.2.1 "abc"
    ⟨false, true, 7⟩ (by decide) (by decide) (by decide)

/-- Witness for C3's amended theorem on a one-event trace in which the
peer disconnects. -/
theorem serve_loop_spec_witness :
    (listenLoop (fun _ => some (3, 4)) [RecvEvent.closed]
        ⟨true, true⟩).2.connected = false ∧
    (listenLoop (fun _ => some (3, 4)) [RecvEvent.closed]
        ⟨true, true⟩).1 ≠ ListenOutcome.exn := by
  refine ⟨(serve_loop_spec (fun _ => some (3, 4)) [RecvEvent.closed]
      ⟨true, true⟩).2.1 (by rfl),
    (serve_loop_spec (fun _ => some (3, 4)) [RecvEvent.closed]
      ⟨true, true⟩).2.2.2 ?_⟩
  intro m hm
  simp at hm

/-! ## C6: registry invariant and reap ordering -/

/-- Every single registry mutation preserves "all registered sessions
have `shellOpen = true`". -/
theorem applyOp_shellOpen (ts : List (String × TermEntry)) (op : RegistryOp)
    (h : ∀ kv ∈ ts, (kv : String × TermEntry).2.shellOpen = true) :
    ∀ kv ∈ applyOp ts op, (kv : String × TermEntry).2.shellOpen = true := by
  intro kv hkv
  cases op with
  | register id pid =>
    rcases mem_dictSet _ _ _ _ hkv with h1 | h1
    · subst h1; rfl
    · exact h _ h1
  | attach id =>
    dsimp [applyOp] at hkv
    cases hg : dictGet ts id with
    | none => rw [hg] at hkv; exact h _ hkv
    | some e =>
      rw [hg] at hkv
      rcases mem_dictSet _ _ _ _ hkv with h1 | h1
      · subst h1
        simpa [setNewConnection] using h _ (dictGet_mem ts id e hg)
      · exact h _ h1
  | detach id =>
    dsimp [applyOp] at hkv
    cases hg : dictGet ts id with
    | none => rw [hg] at hkv; exact h _ hkv
    | some e =>
      rw [hg] at hkv
      rcases mem_dictSet _ _ _ _ hkv with h1 | h1
      · subst h1
        simpa using h _ (dictGet_mem ts id e hg)
      · exact h _ h1
  | reap id =>
    dsimp [applyOp, waitSubshell] at hkv
    have hkv' := (mem_dictDel _ _ _ hkv).1
    have hne := (mem_dictDel _ _ _ hkv).2
    cases hg : dictGet ts id with
    | none => rw [hg] at hkv'; exact h _ hkv'
    | some e =>
      rw [hg] at hkv'
      rcases mem_dictSet _ _ _ _ hkv' with h1 | h1
      · exact absurd (congrArg Prod.fst h1) hne
      · exact h _ h1

/-- Over any history of mutations from the empty registry, every
registered session has `shellOpen = true`. -/
theorem runOps_shellOpen (ops : List RegistryOp) :
    ∀ kv ∈ runOps ops, (kv : String × TermEntry).2.shellOpen = true := by
  suffices hgen : ∀ ts, (∀ kv ∈ ts, (kv : String × TermEntry).2.shellOpen = true) →
      ∀ kv ∈ ops.foldl applyOp ts, (kv : String × TermEntry).2.shellOpen = true by
    exact hgen [] (by simp)
  induction ops with
  | nil => intro ts hts; simpa using hts
  | cons op rest ih =>
    intro ts hts
    exact ih _ (applyOp_shellOpen ts op hts)

/-- Every line of a snapshot comes from a registered session with
`shellOpen = true`, and reports its `connected` flag. -/
theorem snapshot_mem (ts : List (String × TermEntry)) (p : String × Bool)
    (h : p ∈ snapshot ts) :
    ∃ e, (p.1, e) ∈ ts ∧ e.shellOpen = true ∧ e.connected = p.2 := by
  simp only [snapshot, List.mem_map, List.mem_filter] at h
  rcases h with ⟨kv, ⟨hmem, hopen⟩, rfl⟩
  exact ⟨kv.2, hmem, by simpa using hopen, rfl⟩

/-- After the reaper runs for `id`, `id` is no longer registered. -/
theorem waitSubshell_not_mem (id : String) (ts : List (String × TermEntry)) :
    id ∉ dictKeys (waitSubshell id ts) := by
  intro h
  rcases List.mem_map.mp h with ⟨kv, hkv, hfst⟩
  exact (mem_dictDel _ _ _ hkv).2 hfst

/-- C6.  Every session registered in the registry satisfies
`shellOpen = true` (over any history of register / attach / detach /
reap operations from the empty registry), snapshots — the only
observation points exposed to management callers — list only sessions
with `shellOpen = true`, and the reaper removes the session (after
setting `shellOpen = false`) before `pushStateChange` runs, so the
broadcast that follows a reap carries a snapshot in which the reaped
session no longer appears. -/
theorem registry_reap_spec :
    (∀ ops : List RegistryOp, ∀ kv ∈ runOps ops,
      (kv : String × TermEntry).2.shellOpen = true) ∧
    (∀ (ts : List (String × TermEntry)) (p : String × Bool), p ∈ snapshot ts →
      ∃ e, (p.1, e) ∈ ts ∧ e.shellOpen = true ∧ e.connected = p.2) ∧
    (∀ (id : String) (ts : List (String × TermEntry)),
      id ∉ dictKeys (waitSubshell id ts) ∧
      ∀ b, (id, b) ∉ snapshot (waitSubshell id ts)) := by
  refine ⟨runOps_shellOpen, snapshot_mem, fun id ts => ⟨waitSubshell_not_mem id ts, ?_⟩⟩
  intro b hb
  rcases snapshot_mem _ _ hb with ⟨e, hmem, _, _⟩
  exact waitSubshell_not_mem id ts (List.mem_map.mpr ⟨(id, e), hmem, rfl⟩)

/-- Witness for C6 at a concrete one-register history and a concrete
reap. -/
theorem registry_reap_spec_witness :
    ((("s1", (⟨true, true, 5⟩ : TermEntry)) : String × TermEntry).2.shellOpen
        = true) ∧
    ("x" : String) ∉ dictKeys (waitSubshell "x" [("x", ⟨true, true, 9⟩)]) :=
  ⟨registry_reap_spec.1 [RegistryOp.register "s1" 5] _ (by decide),
   (registry_reap_spec.2.2 "x" [("x", ⟨true, true, 9⟩)]).1⟩

/-! ## C9: the management `kill` request -/

/-- C9.  A `kill` request whose `sessionID` is registered with a live
shell sends SIGTERM to that session's child PID and responds with the
success payload; in every other case no signal is sent and the
error payload (`"sessionID not found"`) is the response; and the
management loop keeps processing subsequent requests in both cases —
no request closes the channel. -/
theorem managementHandler_kill_spec (terminals : List (String × TermEntry))
    (id : String) :
    (∀ e, dictGet terminals id = some e → e.shellOpen = true →
      mgmtStep terminals (MgmtRequest.kill (some id)) =
        (some (MgmtResponse.killSuccess id), some e.subshellPID)) ∧
    (dictGet terminals id = none →
      mgmtStep terminals (MgmtRequest.kill (some id)) =
        (some (MgmtResponse.killError id), none)) ∧
    (∀ e, dictGet terminals id = some e → e.shellOpen = false →
      mgmtStep terminals (MgmtRequest.kill (some id)) =
        (some (MgmtResponse.killError id), none)) ∧
    (∀ req rest, managementHandler terminals (req :: rest) =
      mgmtStep terminals req :: managementHandler terminals rest) := by
  refine ⟨?_, ?_, ?_, fun req rest => rfl⟩
  · intro e hget hopen
    simp [mgmtStep, handleKill, hget, hopen]
  · intro hget
    simp [mgmtStep, handleKill, hget]
  · intro e hget hopen
    simp [mgmtStep, handleKill, hget, hopen]

/-- Witness for C9: killing a live session and killing an unknown one,
at concrete registries. -/
theorem managementHandler_kill_spec_witness :
    mgmtStep [("ab12cd34", ⟨true, true, 77⟩)]
        (MgmtRequest.kill (some "ab12cd34")) =
      (some (MgmtResponse.killSuccess "ab12cd34"), some 77) ∧
    mgmtStep [] (MgmtRequest.kill (some "nope")) =
      (some (MgmtResponse.killError "nope"), none) :=
  ⟨(managementHandler_kill_spec [("ab12cd34", ⟨true, true, 77⟩)] "ab12cd34").1
      ⟨true, true, 77⟩ (by decide) rfl,
   (managementHandler_kill_spec [] "nope").2.1 rfl⟩

/-! ## C7: the output pump -/

/-- C7 counterexample: in the run whose first iteration sees `open`
still true but the read raise (the PTY is closed), and whose second
iteration observes `open = false`, the pump does not terminate at the
PTY-closed iteration but at the flag, and at exit the PTY master fd is
still not closed — the claim says the exit path closes (releases) the
master fd. -/
theorem pump_fd_not_closed_cex :
    pushTtyOutput [(true, PumpEvent.err), (false, PumpEvent.err)] false =
      ([], true, false) := by
  rfl

/-- An error iteration with the shell open discards the chunk and the
loop continues unchanged. -/
theorem pushTtyOutput_err (sched : List (Bool × PumpEvent)) (fdc : Bool) :
    pushTtyOutput ((true, PumpEvent.err) :: sched) fdc =
      pushTtyOutput sched fdc := by
  rfl

/-- A successful iteration forwards the chunk and continues. -/
theorem pushTtyOutput_chunk (d : List Char) (sched : List (Bool × PumpEvent))
    (fdc : Bool) :
    pushTtyOutput ((true, PumpEvent.chunk d) :: sched) fdc =
      (d :: (pushTtyOutput sched fdc).1, (pushTtyOutput sched fdc).2) := by
  rfl

/-- The pump terminates exactly when some iteration observes
`self.open = false`. -/
theorem pushTtyOutput_terminates (sched : List (Bool × PumpEvent))
    (fdc : Bool) :
    (pushTtyOutput sched fdc).2.1 = sched.any (fun p => !p.1) := by
  induction sched with
  | nil => rfl
  | cons p rest ih =>
    rcases p with ⟨openNow, ev⟩
    by_cases h : openNow = false
    · subst h; cases ev <;> simp [pushTtyOutput]
    · have ho : openNow = true := by
        cases openNow
        · exact absurd rfl h
        · rfl
      subst ho
      cases ev <;> simp [pushTtyOutput, ih]

/-- The fd flag is carried through every path of the pump untouched:
no exit path closes the PTY master. -/
theorem pushTtyOutput_fd (sched : List (Bool × PumpEvent)) (fdc : Bool) :
    (pushTtyOutput sched fdc).2.2 = fdc := by
  induction sched with
  | nil => rfl
  | cons p rest ih =>
    rcases p with ⟨openNow, ev⟩
    by_cases h : openNow = false
    · simp [pushTtyOutput, h]
    · cases ev <;> simp [pushTtyOutput, h, ih]

/-- C7 (amended).  The output pump discards a chunk silently and keeps
reading on any per-iteration error (closed PTY, decode failure, failed
send) and forwards successful reads in order; it terminates exactly when
it observes `self.open = false` — the flag the reaper clears — not when
the PTY reports closed; and the PTY master file descriptor is NOT closed
on its exit path (nothing in the pump closes `ttyFd`). -/
theorem pump_spec (sched : List (Bool × PumpEvent)) (fdc : Bool)
    (d : List Char) :
    (pushTtyOutput ((true, PumpEvent.err) :: sched) fdc =
      pushTtyOutput sched fdc) ∧
    (pushTtyOutput ((true, PumpEvent.chunk d) :: sched) fdc =
      (d :: (pushTtyOutput sched fdc).1, (pushTtyOutput sched fdc).2)) ∧
    ((pushTtyOutput sched fdc).2.1 = sched.any (fun p => !p.1)) ∧
    ((pushTtyOutput sched fdc).2.2 = fdc) :=
  ⟨pushTtyOutput_err sched fdc, pushTtyOutput_chunk d sched fdc,
   pushTtyOutput_terminates sched fdc, pushTtyOutput_fd sched fdc⟩

/-! ## C5: the SessionID greeting race -/

/-- C5.  The pump thread is already running when `Terminal.__init__`
returns (`startTty`, lines 58-59), while the SessionID greeting is only
sent by `listen` (line 78); nothing orders the pump's first send after
the greeting.  This trace is reachable from the post-`create` state: a
PTY output chunk is delivered to the peer first and the greeting second,
contradicting the claim that the 8-hex SessionID precedes every PTY
output chunk. -/
theorem greeting_race_reachable :
    Relation.ReflTransGen (SessionStep "deadbeef") createState
      { pumpStarted := true, greeted := true,
        frames := [Frame.chunk "sh-5.1$ ", Frame.greeting "deadbeef"] } := by
  have h1 : SessionStep "deadbeef" createState
      { pumpStarted := true, greeted := false,
        frames := [Frame.chunk "sh-5.1$ "] } :=
    SessionStep.pump "sh-5.1$ " createState rfl
  have h2 : SessionStep "deadbeef"
      { pumpStarted := true, greeted := false,
        frames := [Frame.chunk "sh-5.1$ "] }
      { pumpStarted := true, greeted := true,
        frames := [Frame.chunk "sh-5.1$ ", Frame.greeting "deadbeef"] } :=
    SessionStep.greet
      { pumpStarted := true, greeted := false,
        frames := [Frame.chunk "sh-5.1$ "] } rfl
  exact Relation.ReflTransGen.head h1 (Relation.ReflTransGen.single h2)

/-! ## C10: the unguarded Origin lookup -/

/-- C10.  A request with no `Origin` header at all makes
`websocket.request_headers["Origin"]` raise an uncaught lookup error —
not the silent close that a present-but-non-allow-listed Origin value
receives — so the origin check is total only when the header is
present. -/
theorem handler_origin_spec (port : Nat) (originHeader : Option String) :
    (handlerOriginCheck none (allowedOrigins port) =
      HandlerStep.uncaughtKeyError) ∧
    (∀ o, o ∉ allowedOrigins port →
      handlerOriginCheck (some o) (allowedOrigins port) =
        HandlerStep.closedSilently) ∧
    (handlerOriginCheck originHeader (allowedOrigins port) ≠
        HandlerStep.uncaughtKeyError ↔ originHeader ≠ none) := by
  refine ⟨rfl, ?_, ?_⟩
  · intro o ho
    simp [handlerOriginCheck, ho]
  · cases originHeader with
    | none => simp [handlerOriginCheck]
    | some o =>
      by_cases h : o ∈ allowedOrigins port <;> simp [handlerOriginCheck, h]

/-- Witness for C10 at the default content-server port and a hostile
origin. -/
theorem handler_origin_spec_witness :
    handlerOriginCheck (some "http://evil.example") (allowedOrigins 9423) =
      HandlerStep.closedSilently :=
  (handler_origin_spec 9423 none).2.1 "http://evil.example" (by decide)

end TerminalServer
